import Mathlib

/-!
Verification development for the event acquisition and decoding pipeline
of the influence-eth repository (file influence/crew/influence.go).

The Go code is shallowly embedded: pure Go functions become Lean functions,
machine integers become Nat/Int with explicit reductions modulo 2^64 where
Go's uint64 arithmetic wraps, fallible Go functions return an explicit
result type, and run-time panics are modelled as a distinct result
constructor so that totality claims can be settled.
-/

namespace InfluenceEth

/-- Go error values relevant to this package.  `incorrectParameters` embeds
the package-level `ErrIncorrectParameters`; `hexDecode` embeds the error
returned by `hex.DecodeString`; `provider` embeds errors surfaced by the
RPC provider. -/
inductive GoError where
  | incorrectParameters : GoError
  | hexDecode : GoError
  | provider : String → GoError
  deriving DecidableEq, Repr

/-- Result of a Go computation that can return a value, return an error, or
panic at run time.  Go's `(T, error)` returns with `err != nil` are embedded
as `err`; run-time panics (slice bounds, makeslice) as `panicked`. -/
inductive GoResult (α : Type) where
  | ok : α → GoResult α
  | err : GoError → GoResult α
  | panicked : String → GoResult α
  deriving DecidableEq, Repr

/-- The Stark field prime: `fp.Element` values are reduced modulo this. -/
def FELT_PRIME : Nat := 2 ^ 251 + 17 * 2 ^ 192 + 1

/-- Embedding of `felt.Felt` (a Stark field element): its canonical integer
value.  Field arithmetic is never used by this package, only conversions,
so the value is kept as a bare natural number. -/
structure Felt where
  val : Nat
  deriving DecidableEq, Repr

/-- Embedding of `felt.Felt.Uint64()`: the canonical value truncated to the
low 64 bits. -/
def Felt.Uint64 (f : Felt) : Nat := f.val % 2 ^ 64

/-- Embedding of `felt.Felt.BigInt(...)`: the exact (nonnegative) integer
value, as Go's `*big.Int`. -/
def Felt.BigInt (f : Felt) : Int := (f.val : Int)

/-- Embedding of `felt.Felt.String()`: `0x` followed by the minimal
lowercase hexadecimal representation of the value. -/
def Felt.String (f : Felt) : String :=
  "0x" ++ (Nat.toDigits 16 f.val).asString

/-- Embedding of `felt.Felt.Cmp`: three-way comparison of canonical values. -/
def Felt.Cmp (f g : Felt) : Int :=
  if f.val < g.val then -1 else if f.val = g.val then 0 else 1

/-- Embedding of `ParseUint64` (influence.go:23): requires at least one
remaining field element, consumes exactly 1. -/
def ParseUint64 (parameters : List Felt) : GoResult (Nat × Nat) :=
  match parameters with
  | [] => .err .incorrectParameters
  | p :: _ => .ok (p.Uint64, 1)

/-- Embedding of `ParseBigInt` (influence.go:30): requires at least one
remaining field element, consumes exactly 1. -/
def ParseBigInt (parameters : List Felt) : GoResult (Int × Nat) :=
  match parameters with
  | [] => .err .incorrectParameters
  | p :: _ => .ok (p.BigInt, 1)

/-- Embedding of `ParseString` (influence.go:39): requires at least one
remaining field element, consumes exactly 1. -/
def ParseString (parameters : List Felt) : GoResult (String × Nat) :=
  match parameters with
  | [] => .err .incorrectParameters
  | p :: _ => .ok (p.String, 1)

/-- Go's conversion `int(x)` of a `uint64` on a 64-bit platform: values at
least `2^63` wrap to negative. -/
def intOfUint64 (raw : Nat) : Int :=
  if raw < 2 ^ 63 then (raw : Int) else (raw : Int) - 2 ^ 64

/-- Two's-complement wraparound of Go `int` (64-bit) arithmetic, used for
the `arrayLength+1` expression in `ParseArray`. -/
def wrapInt64 (x : Int) : Int := (x + 2 ^ 63) % 2 ^ 64 - 2 ^ 63

/-- The `for i := 0; i < arrayLength; i++` loop body of `ParseArray`
(influence.go:60-67): invoke the element parser on the remaining slice,
record the value, advance the shared cursor by the reported consumption.
The accumulator is reversed at the end, so values stay in encounter order.
Go's slice expression `parameters[currentIndex:]` is embedded as
`List.drop`; for element parsers that report true consumption this never
exceeds the list length. -/
def parseArrayLoop {T : Type} (parser : List Felt → GoResult (T × Nat))
    (parameters : List Felt) :
    Nat → Nat → List T → GoResult (List T × Nat)
  | 0, currentIndex, acc => .ok (acc.reverse, currentIndex)
  | Nat.succ k, currentIndex, acc =>
    match parser (parameters.drop currentIndex) with
    | .ok (parsed, consumed) =>
        parseArrayLoop parser parameters k (currentIndex + consumed) (parsed :: acc)
    | .err e => .err e
    | .panicked s => .panicked s

/-- Embedding of `ParseArray` (influence.go:46-71).  Reads the first
element's `Uint64()` as the length, converts it to Go `int` (wrapping to
negative for values at least `2^63`), checks
`len(parameters) < arrayLength+1` (with 64-bit wraparound on the `+1`),
then `make([]T, arrayLength)`, and runs the element parser `arrayLength`
times over the shared remaining-slice view.  The `make` call panics in Go
when `arrayLength` is negative, and also when `arrayLength * sizeof(T)`
exceeds the allocator limit: for every non-zero-size element type (every
instantiation in this package decodes into strings or pointers) that is
certain at `arrayLength = maxInt64 = 2^63 - 1`, the single nonnegative
length reachable past the wrapped `arrayLength+1` check, since the limit
is below `2^63 - 1` on every platform.  Lengths that did pass the check
against the input (`arrayLength <= len(parameters) - 1`) are modelled as
allocatable: a failure there would be resource exhaustion for an input
that itself fits in memory, not semantics. -/
def ParseArray {T : Type} (parser : List Felt → GoResult (T × Nat))
    (parameters : List Felt) : GoResult (List T × Nat) :=
  match parameters with
  | [] => .err .incorrectParameters
  | p :: _ =>
    let arrayLengthRaw := p.Uint64
    let arrayLength : Int := intOfUint64 arrayLengthRaw
    if (parameters.length : Int) < wrapInt64 (arrayLength + 1) then
      .err .incorrectParameters
    else if arrayLength < 0 ∨ 2 ^ 63 - 1 ≤ arrayLength then
      .panicked "makeslice: len out of range"
    else
      parseArrayLoop parser parameters arrayLength.toNat 1 []

/-- Hexadecimal digit test, as accepted by Go's `hex.DecodeString`. -/
def isHexChar (c : Char) : Bool :=
  (decide ('0' ≤ c) && decide (c ≤ '9')) ||
  (decide ('a' ≤ c) && decide (c ≤ 'f')) ||
  (decide ('A' ≤ c) && decide (c ≤ 'F'))

/-- Numeric value of a hexadecimal digit (0 for non-digits; only applied to
valid digits). -/
def hexCharVal (c : Char) : Nat :=
  if '0' ≤ c ∧ c ≤ '9' then c.toNat - '0'.toNat
  else if 'a' ≤ c ∧ c ≤ 'f' then c.toNat - 'a'.toNat + 10
  else if 'A' ≤ c ∧ c ≤ 'F' then c.toNat - 'A'.toNat + 10
  else 0

/-- Integer value of the big-endian byte string decoded from an even-length
hex string (the value `SetBytes` receives). -/
def hexStringNat (s : String) : Nat :=
  s.data.foldl (fun a c => 16 * a + hexCharVal c) 0

/-- Whether Go's `hex.DecodeString` succeeds on `s`: every character a hex
digit and even length. -/
def hexDecodeOk (s : String) : Bool :=
  decide (s.data.length % 2 = 0) && s.data.all isHexChar

/-- The `if hexString[:2] == "0x" { hexString = hexString[2:] }` prefix
strip.  Go slices the byte string; for the ASCII prefix `0x` this is the
same as comparing the first two characters. -/
def stripHex0x (s : String) : String :=
  if s.data.take 2 = ['0', 'x'] then ⟨s.data.drop 2⟩ else s

/-- Embedding of `FeltFromHexString` (influence.go:85-99).  The Go code
evaluates `hexString[:2]` before any length check: on a string shorter than
two bytes this is a slice-bounds run-time panic.  Otherwise the optional
`0x` prefix is stripped, the rest is hex-decoded (error on failure), and
`SetBytes` reduces the big-endian value modulo the field prime. -/
def FeltFromHexString (hexString : String) : GoResult Felt :=
  if hexString.utf8ByteSize < 2 then
    .panicked "runtime error: slice bounds out of range"
  else
    let s := stripHex0x hexString
    if hexDecodeOk s then
      .ok ⟨hexStringNat s % FELT_PRIME⟩
    else
      .err .hexDecode

/-- Embedding of `RawEvent` (influence.go:75-83), the unit the poller
emits.  Go pointers to felts become plain values. -/
structure RawEvent where
  BlockNumber : Nat
  BlockHash : Felt
  TransactionHash : Felt
  FromAddress : Felt
  PrimaryKey : Felt
  Keys : List Felt
  Parameters : List Felt
  deriving DecidableEq, Repr

/-- Embedding of the `Influence_Contracts_Crew_Crew_Transfer` struct:
`From`/`To` are felts rendered as strings, `TokenId` a big integer. -/
structure Influence_Contracts_Crew_Crew_Transfer where
  From : String
  To : String
  TokenId : Int
  deriving DecidableEq, Repr

/-- Embedding of the `Influence_Contracts_Crew_Crew_Approval` struct. -/
structure Influence_Contracts_Crew_Crew_Approval where
  Owner : String
  Approved : String
  TokenId : Int
  deriving DecidableEq, Repr

/-- Embedding of `Core_Bool`, a transparent type alias for `uint64` in the
Go code. -/
abbrev Core_Bool : Type := Nat

/-- Embedding of the `Influence_Contracts_Crew_Crew_ApprovalForAll` struct. -/
structure Influence_Contracts_Crew_Crew_ApprovalForAll where
  Owner : String
  Operator : String
  Approved : Nat
  deriving DecidableEq, Repr

/-- Embedding of `ParseCore_Bool` (influence.go:339-344). -/
def ParseCore_Bool (parameters : List Felt) : GoResult (Nat × Nat) :=
  match parameters with
  | [] => .err .incorrectParameters
  | p :: _ => .ok (p.Uint64, 1)

/-- Embedding of `EvaluateCore_Bool` (influence.go:347-355). -/
def EvaluateCore_Bool (raw : Nat) : String :=
  if raw = 0 then "False" else if raw = 1 then "True" else "UNKNOWN"

/-- Embedding of `ParseInfluence_Contracts_Crew_Crew_Transfer`
(influence.go:235-261): three fields parsed strictly left-to-right over the
shared remaining-slice view, accumulating consumed counts in
`currentIndex`; any field failure aborts the whole parse.  Note the
function returns `currentIndex + 1`, not `currentIndex`. -/
def ParseInfluence_Contracts_Crew_Crew_Transfer (parameters : List Felt) :
    GoResult (Influence_Contracts_Crew_Crew_Transfer × Nat) :=
  match ParseString (parameters.drop 0) with
  | .err e => .err e
  | .panicked s => .panicked s
  | .ok (value0, consumed0) =>
    match ParseString (parameters.drop (0 + consumed0)) with
    | .err e => .err e
    | .panicked s => .panicked s
    | .ok (value1, consumed1) =>
      match ParseBigInt (parameters.drop (0 + consumed0 + consumed1)) with
      | .err e => .err e
      | .panicked s => .panicked s
      | .ok (value2, consumed2) =>
        .ok (⟨value0, value1, value2⟩, 0 + consumed0 + consumed1 + consumed2 + 1)

/-- Embedding of `ParseInfluence_Contracts_Crew_Crew_Approval`
(influence.go:401-427); same shape as the Transfer parser. -/
def ParseInfluence_Contracts_Crew_Crew_Approval (parameters : List Felt) :
    GoResult (Influence_Contracts_Crew_Crew_Approval × Nat) :=
  match ParseString (parameters.drop 0) with
  | .err e => .err e
  | .panicked s => .panicked s
  | .ok (value0, consumed0) =>
    match ParseString (parameters.drop (0 + consumed0)) with
    | .err e => .err e
    | .panicked s => .panicked s
    | .ok (value1, consumed1) =>
      match ParseBigInt (parameters.drop (0 + consumed0 + consumed1)) with
      | .err e => .err e
      | .panicked s => .panicked s
      | .ok (value2, consumed2) =>
        .ok (⟨value0, value1, value2⟩, 0 + consumed0 + consumed1 + consumed2 + 1)

/-- Embedding of `ParseInfluence_Contracts_Crew_Crew_ApprovalForAll`
(influence.go:448-474). -/
def ParseInfluence_Contracts_Crew_Crew_ApprovalForAll (parameters : List Felt) :
    GoResult (Influence_Contracts_Crew_Crew_ApprovalForAll × Nat) :=
  match ParseString (parameters.drop 0) with
  | .err e => .err e
  | .panicked s => .panicked s
  | .ok (value0, consumed0) =>
    match ParseString (parameters.drop (0 + consumed0)) with
    | .err e => .err e
    | .panicked s => .panicked s
    | .ok (value1, consumed1) =>
      match ParseCore_Bool (parameters.drop (0 + consumed0 + consumed1)) with
      | .err e => .err e
      | .panicked s => .panicked s
      | .ok (value2, consumed2) =>
        .ok (⟨value0, value1, value2⟩, 0 + consumed0 + consumed1 + consumed2 + 1)

/-- The string `EVENT_UNKNOWN` (influence.go:263). -/
def EVENT_UNKNOWN : String := "UNKNOWN"

/-- The ABI name string for the Transfer event (Go variable
`Event_Influence_Contracts_Crew_Crew_Transfer`; suffixed `_Name` here
because the Lean namespace also holds the struct type of that name). -/
def Event_Influence_Contracts_Crew_Crew_Transfer_Name : String :=
  "influence::contracts::crew::Crew::Transfer"

/-- The ABI name string for the Approval event. -/
def Event_Influence_Contracts_Crew_Crew_Approval_Name : String :=
  "influence::contracts::crew::Crew::Approval"

/-- The ABI name string for the ApprovalForAll event. -/
def Event_Influence_Contracts_Crew_Crew_ApprovalForAll_Name : String :=
  "influence::contracts::crew::Crew::ApprovalForAll"

/-- Starknet hash hex string for the Transfer event (influence.go:222). -/
def Hash_Influence_Contracts_Crew_Crew_Transfer : String :=
  "99cd8bde557814842a3121e8ddfd433a539b8c9f14bf31ebf108d12e6196e9"

/-- Starknet hash hex string for the Approval event (influence.go:388). -/
def Hash_Influence_Contracts_Crew_Crew_Approval : String :=
  "0134692b230b9e1ffa39098904722134159652b09c5bc41d88d6698779d228ff"

/-- Starknet hash hex string for the ApprovalForAll event
(influence.go:435). -/
def Hash_Influence_Contracts_Crew_Crew_ApprovalForAll : String :=
  "06ad9ed7b6318f1bcffefe19df9aeb40d22c36bed567e1925a5ccde0536edd"

/-- The `interface{}`-typed `Event` field of `ParsedEvent`: either one of
the three decoded event structs or the pass-through `RawEvent`. -/
inductive EventValue where
  | approval : Influence_Contracts_Crew_Crew_Approval → EventValue
  | approvalForAll : Influence_Contracts_Crew_Crew_ApprovalForAll → EventValue
  | transfer : Influence_Contracts_Crew_Crew_Transfer → EventValue
  | raw : RawEvent → EventValue
  deriving DecidableEq, Repr

/-- Embedding of `ParsedEvent` (influence.go:265-268). -/
structure ParsedEvent where
  Name : String
  Event : EventValue
  deriving DecidableEq, Repr

/-- Embedding of `EventParser` (influence.go:275-279): the three registered
signature field elements. -/
structure EventParser where
  Event_Influence_Contracts_Crew_Crew_Approval_Felt : Felt
  Event_Influence_Contracts_Crew_Crew_ApprovalForAll_Felt : Felt
  Event_Influence_Contracts_Crew_Crew_Transfer_Felt : Felt
  deriving DecidableEq, Repr

/-- Outcome of a Go computation whose only non-value exit is a run-time
panic (a `(T, error)` pair is inside `α` when the error is a value). -/
inductive GoOutcome (α : Type) where
  | ok : α → GoOutcome α
  | panicked : String → GoOutcome α
  deriving DecidableEq, Repr

/-- Embedding of `NewEventParser` (influence.go:281-301): converts each
signature hash hex string to a field element, failing fast on the first
conversion error. -/
def NewEventParser : GoResult EventParser :=
  match FeltFromHexString Hash_Influence_Contracts_Crew_Crew_Approval with
  | .err e => .err e
  | .panicked s => .panicked s
  | .ok approvalFelt =>
    match FeltFromHexString Hash_Influence_Contracts_Crew_Crew_ApprovalForAll with
    | .err e => .err e
    | .panicked s => .panicked s
    | .ok approvalForAllFelt =>
      match FeltFromHexString Hash_Influence_Contracts_Crew_Crew_Transfer with
      | .err e => .err e
      | .panicked s => .panicked s
      | .ok transferFelt => .ok ⟨approvalFelt, approvalForAllFelt, transferFelt⟩

/-- Embedding of `EventParser.Parse` (influence.go:303-328).  The Go
function returns `(ParsedEvent, error)`; that pair is the `ok` payload,
with `none` for a nil error.  Compares the raw event's primary key against
each registered signature in order; on a match runs that event's struct
decoder, returning the default UNKNOWN result together with the error when
the decode fails; on no match returns the default result and a nil
error. -/
def EventParser.Parse (p : EventParser) (event : RawEvent) :
    GoOutcome (ParsedEvent × Option GoError) :=
  let defaultResult : ParsedEvent := ⟨EVENT_UNKNOWN, .raw event⟩
  if Felt.Cmp p.Event_Influence_Contracts_Crew_Crew_Approval_Felt event.PrimaryKey = 0 then
    match ParseInfluence_Contracts_Crew_Crew_Approval event.Parameters with
    | .err e => .ok (defaultResult, some e)
    | .panicked s => .panicked s
    | .ok (parsedEvent, _) =>
        .ok (⟨Event_Influence_Contracts_Crew_Crew_Approval_Name, .approval parsedEvent⟩, none)
  else if Felt.Cmp p.Event_Influence_Contracts_Crew_Crew_ApprovalForAll_Felt event.PrimaryKey = 0 then
    match ParseInfluence_Contracts_Crew_Crew_ApprovalForAll event.Parameters with
    | .err e => .ok (defaultResult, some e)
    | .panicked s => .panicked s
    | .ok (parsedEvent, _) =>
        .ok (⟨Event_Influence_Contracts_Crew_Crew_ApprovalForAll_Name, .approvalForAll parsedEvent⟩, none)
  else if Felt.Cmp p.Event_Influence_Contracts_Crew_Crew_Transfer_Felt event.PrimaryKey = 0 then
    match ParseInfluence_Contracts_Crew_Crew_Transfer event.Parameters with
    | .err e => .ok (defaultResult, some e)
    | .panicked s => .panicked s
    | .ok (parsedEvent, _) =>
        .ok (⟨Event_Influence_Contracts_Crew_Crew_Transfer_Name, .transfer parsedEvent⟩, none)
  else
    .ok (defaultResult, none)

/-- Embedding of `rpc.EventFilter` as used by `AllEventsFilter`: the block
range, the optional decoded contract address, and the key filter. -/
structure EventFilter where
  FromBlock : Nat
  ToBlock : Nat
  Address : Option Felt
  Keys : List (List Felt)
  deriving DecidableEq, Repr

/-- Embedding of `AllEventsFilter` (influence.go:101-121).  An empty
contract address yields an unfiltered query; otherwise the address string
goes through the same unguarded `[:2]` prefix strip (run-time panic on a
single-byte string) and hex decode (error return) as
`FeltFromHexString`. -/
def AllEventsFilter (fromBlock toBlock : Nat) (contractAddress : String) :
    GoResult EventFilter :=
  if contractAddress = "" then
    .ok ⟨fromBlock, toBlock, none, [[]]⟩
  else if contractAddress.utf8ByteSize < 2 then
    .panicked "runtime error: slice bounds out of range"
  else
    let s := stripHex0x contractAddress
    if hexDecodeOk s then
      .ok ⟨fromBlock, toBlock, some ⟨hexStringNat s % FELT_PRIME⟩, [[]]⟩
    else
      .err .hexDecode

/-- Embedding of one event returned by `provider.Events` (the fields of
starknet.go's `EmittedEvent` that `ContractEvents` reads). -/
structure EmittedEvent where
  BlockNumber : Nat
  BlockHash : Felt
  TransactionHash : Felt
  FromAddress : Felt
  Keys : List Felt
  Data : List Felt
  deriving DecidableEq, Repr

/-- Embedding of one page returned by `provider.Events`: the events plus
the pagination continuation token (empty string means last page). -/
structure EventsChunk where
  Events : List EmittedEvent
  ContinuationToken : String
  deriving DecidableEq, Repr

/-- Embedding of the `CrawlCursor` struct local to `ContractEvents`
(influence.go:126-132).  `Interval` is a Go `time.Duration`, i.e. an
`int64` nanosecond count; `Heat` a Go `int`. -/
structure CrawlCursor where
  FromBlock : Nat
  ToBlock : Nat
  ContinuationToken : String
  Interval : Int
  Heat : Int
  deriving DecidableEq, Repr

/-- The configuration arguments of `ContractEvents` that the loop body
reads (context, provider, and channel are modelled separately;
`batchSize` is only forwarded to the provider inside the fetch request). -/
structure PollConfig where
  contractAddress : String
  hotThreshold : Int
  hotInterval : Int
  coldInterval : Int
  fromBlock : Nat
  toBlock : Nat
  confirmations : Int
  batchSize : Int
  deriving DecidableEq, Repr

/-- Go's conversion `uint64(x)` of an `int` value: reduction modulo
`2^64` (negative values wrap to large naturals). -/
def u64ofInt (x : Int) : Nat := (x % ((2 : Int) ^ 64)).toNat

/-- Go's wrapping `uint64` subtraction `a - b` for `a, b` already reduced
into the `uint64` range is embedded on naturals. -/
def u64sub (a b : Nat) : Nat :=
  (a % 2 ^ 64 + (2 ^ 64 - b % 2 ^ 64)) % 2 ^ 64

/-- The initial cursor of `ContractEvents` (influence.go:134). -/
def initialCursor (cfg : PollConfig) : CrawlCursor :=
  ⟨cfg.fromBlock, cfg.toBlock, "", cfg.hotInterval, 0⟩

/-- The per-event conversion loop of `ContractEvents`
(influence.go:181-193): each returned event becomes a `RawEvent` whose
primary key is `event.Keys[0]` — a run-time index panic when the key list
is empty. -/
def toRawEvents : List EmittedEvent → GoOutcome (List RawEvent)
  | [] => .ok []
  | e :: restEvents =>
    match e.Keys with
    | [] => .panicked "runtime error: index out of range"
    | k :: _ =>
      match toRawEvents restEvents with
      | .ok tail =>
          .ok (⟨e.BlockNumber, e.BlockHash, e.TransactionHash, e.FromAddress,
                k, e.Keys, e.Data⟩ :: tail)
      | .panicked s => .panicked s

/-- The continuation-token / range-advance / heat block of
`ContractEvents` (influence.go:195-211), applied to the resolved cursor
`cur` after a fetch returned `chunk`.  With a non-empty token the range is
kept and only the token and interval change; with an empty token the range
advances (`FromBlock = ToBlock+1` with uint64 wraparound, `ToBlock` reset
to the configured bound), then heat is incremented and the interval set
hot once `heat >= hotThreshold` when the range yielded events, or heat
reset and the interval set cold when it yielded none. -/
def advanceCursor (cfg : PollConfig) (cur : CrawlCursor) (chunk : EventsChunk) :
    CrawlCursor :=
  if chunk.ContinuationToken ≠ "" then
    { cur with ContinuationToken := chunk.ContinuationToken,
               Interval := cfg.hotInterval }
  else
    let advanced := { cur with FromBlock := (cur.ToBlock + 1) % 2 ^ 64,
                               ToBlock := cfg.toBlock,
                               ContinuationToken := "" }
    if 0 < chunk.Events.length then
      let heat := advanced.Heat + 1
      if heat ≥ cfg.hotThreshold then
        { advanced with Heat := heat, Interval := cfg.hotInterval }
      else
        { advanced with Heat := heat }
    else
      { advanced with Heat := 0, Interval := cfg.coldInterval }

/-- Result of one non-cancelled iteration of the `ContractEvents` loop
body.  `cont` carries the block range actually fetched (or `none` when the
iteration only waited), the raw events sent to the output channel, and the
cursor for the next iteration; `finished` is the `return nil` of an
exhausted fixed range (the deferred `close(outChan)` fires on every
return); `failed` propagates a provider or filter error; `panicked` a
run-time panic. -/
inductive StepRes where
  | cont : Option (Nat × Nat) → List RawEvent → CrawlCursor → StepRes
  | finished : StepRes
  | failed : GoError → StepRes
  | panicked : String → StepRes
  deriving DecidableEq, Repr

/-- The upper-bound resolution at the top of each `ContractEvents`
iteration (influence.go:144-150): when the cursor's `ToBlock` is 0 the
chain head is queried (propagating any provider error) and the cursor's
`ToBlock` becomes `head - uint64(confirmations)` in wrapping uint64
arithmetic; otherwise the cursor is unchanged. -/
def resolveCursor (cfg : PollConfig) (headResp : Except GoError Nat)
    (cursor : CrawlCursor) : Except GoError CrawlCursor :=
  if cursor.ToBlock = 0 then
    match headResp with
    | .error e => .error e
    | .ok currentblock =>
        .ok { cursor with
                ToBlock := u64sub currentblock (u64ofInt cfg.confirmations) }
  else .ok cursor

/-- Embedding of one iteration of the `for`/`select` loop of
`ContractEvents` (influence.go:138-213), in the case where the context is
not cancelled and the interval tick fired.  The two provider round-trips
are oracle inputs: `headResp` is what `provider.BlockNumber` would return
(consulted only when the cursor's `ToBlock` is 0) and `eventsResp` what
`provider.Events` would return for this iteration's filter.  The local
`count` variable of the Go loop is incremented and never read, and is
omitted. -/
def contractEventsStep (cfg : PollConfig)
    (headResp : Except GoError Nat)
    (eventsResp : Except GoError EventsChunk)
    (cursor : CrawlCursor) : StepRes :=
  match resolveCursor cfg headResp cursor with
  | .error e => .failed e
  | .ok cur =>
    if cur.ToBlock ≤ cur.FromBlock then
      if cfg.toBlock = 0 then
        .cont none [] { cur with Interval := cfg.coldInterval }
      else
        .finished
    else
      match AllEventsFilter cur.FromBlock cur.ToBlock cfg.contractAddress with
      | .panicked s => .panicked s
      | .err e => .failed e
      | .ok _ =>
        match eventsResp with
        | .error e => .failed e
        | .ok chunk =>
          match toRawEvents chunk.Events with
          | .panicked s => .panicked s
          | .ok emitted =>
              .cont (some (cur.FromBlock, cur.ToBlock)) emitted
                (advanceCursor cfg cur chunk)

/-- The parameter region of `parameters` starting at cursor position
`start` encodes `n` successive `parser`-decodable items with values `vs`
and per-item consumed counts `cs`: each invocation of `parser` on the
corresponding remaining-slice view succeeds, consumes at least one
element, and the next item starts where the previous one ended. -/
def DecodesItems {T : Type} (parser : List Felt → GoResult (T × Nat))
    (parameters : List Felt) :
    Nat → Nat → List T → List Nat → Prop
  | _, 0, vs, cs => vs = [] ∧ cs = []
  | start, Nat.succ k, vs, cs =>
    ∃ v c vsTail csTail,
      parser (parameters.drop start) = .ok (v, c) ∧ 1 ≤ c ∧
      DecodesItems parser parameters (start + c) k vsTail csTail ∧
      vs = v :: vsTail ∧ cs = c :: csTail

theorem Felt.Cmp_eq_zero_iff (f g : Felt) : Felt.Cmp f g = 0 ↔ f = g := by
  obtain ⟨fv⟩ := f
  obtain ⟨gv⟩ := g
  simp only [Felt.Cmp, Felt.mk.injEq]
  split_ifs with h1 h2
  · constructor
    · intro hh
      exact absurd hh (by norm_num)
    · intro hh
      omega
  · simp [h2]
  · constructor
    · intro hh
      exact absurd hh (by norm_num)
    · intro hh
      omega

theorem u64sub_of_le (a b : Nat) (hb : b ≤ a) (ha : a < 2 ^ 64) :
    u64sub a b = a - b := by
  have h64 : (2 : Nat) ^ 64 = 18446744073709551616 := by norm_num
  unfold u64sub
  rw [h64] at ha ⊢
  omega

theorem u64sub_of_lt (a b : Nat) (hab : a < b) (hb : b < 2 ^ 64) :
    u64sub a b = (((a : Int) - b) % 2 ^ 64).toNat := by
  have h64 : (2 : Nat) ^ 64 = 18446744073709551616 := by norm_num
  have h64i : (2 : Int) ^ 64 = 18446744073709551616 := by norm_num
  unfold u64sub
  rw [h64] at hb ⊢
  rw [h64i]
  omega

theorem u64ofInt_coe (c : Nat) (hc : c < 2 ^ 64) : u64ofInt (c : Int) = c := by
  have h64i : (2 : Int) ^ 64 = 18446744073709551616 := by norm_num
  have h64 : (2 : Nat) ^ 64 = 18446744073709551616 := by norm_num
  unfold u64ofInt
  rw [h64i]
  rw [h64] at hc
  omega

theorem DecodesItems_length_sum {T : Type}
    (parser : List Felt → GoResult (T × Nat)) (parameters : List Felt) :
    ∀ (n start : Nat) (vs : List T) (cs : List Nat),
      DecodesItems parser parameters start n vs cs →
      cs.length = n ∧ n ≤ cs.sum := by
  intro n
  induction n with
  | zero =>
    intro start vs cs h
    obtain ⟨hv, hc⟩ := h
    subst hc
    simp
  | succ k ih =>
    intro start vs cs h
    obtain ⟨v, c, vsTail, csTail, hp, hc1, hrest, hv, hcs⟩ := h
    subst hcs
    obtain ⟨hlen, hsum⟩ := ih (start + c) vsTail csTail hrest
    constructor
    · simp [hlen]
    · simp only [List.sum_cons]
      omega

theorem parseArrayLoop_ok {T : Type}
    (parser : List Felt → GoResult (T × Nat)) (parameters : List Felt) :
    ∀ (n start : Nat) (vs : List T) (cs : List Nat) (acc : List T),
      DecodesItems parser parameters start n vs cs →
      parseArrayLoop parser parameters n start acc
        = .ok (acc.reverse ++ vs, start + cs.sum) := by
  intro n
  induction n with
  | zero =>
    intro start vs cs acc h
    obtain ⟨hv, hc⟩ := h
    subst hv
    subst hc
    simp [parseArrayLoop]
  | succ k ih =>
    intro start vs cs acc h
    obtain ⟨v, c, vsTail, csTail, hp, hc1, hrest, hv, hcs⟩ := h
    subst hv
    subst hcs
    simp only [parseArrayLoop, hp]
    rw [ih (start + c) vsTail csTail (v :: acc) hrest]
    simp only [List.reverse_cons, List.append_assoc, List.singleton_append,
      List.sum_cons, GoResult.ok.injEq, Prod.mk.injEq, and_true, true_and]
    omega

theorem parseArrayLoop_err {T : Type}
    (parser : List Felt → GoResult (T × Nat)) (parameters : List Felt)
    (e : GoError) :
    ∀ (j m start : Nat) (vs : List T) (cs : List Nat) (acc : List T),
      DecodesItems parser parameters start j vs cs →
      parser (parameters.drop (start + cs.sum)) = .err e →
      parseArrayLoop parser parameters (j + Nat.succ m) start acc = .err e := by
  intro j
  induction j with
  | zero =>
    intro m start vs cs acc h hp
    obtain ⟨hv, hc⟩ := h
    subst hc
    simp only [List.sum_nil, Nat.add_zero] at hp
    simp only [Nat.zero_add, parseArrayLoop, hp]
  | succ k ih =>
    intro m start vs cs acc h hp
    obtain ⟨v, c, vsTail, csTail, hpi, hc1, hrest, hv, hcs⟩ := h
    subst hcs
    have hstep : Nat.succ k + Nat.succ m = Nat.succ (k + Nat.succ m) := by omega
    rw [hstep]
    simp only [parseArrayLoop, hpi]
    apply ih m (start + c) vsTail csTail (v :: acc) hrest
    simp only [List.sum_cons] at hp
    rw [Nat.add_assoc]
    exact hp

theorem parseArrayLoop_no_panic {T : Type}
    (parser : List Felt → GoResult (T × Nat)) (parameters : List Felt)
    (hnp : ∀ qs s, parser qs ≠ .panicked s) :
    ∀ (n start : Nat) (acc : List T) (s : String),
      parseArrayLoop parser parameters n start acc ≠ .panicked s := by
  intro n
  induction n with
  | zero =>
    intro start acc s
    simp [parseArrayLoop]
  | succ k ih =>
    intro start acc s
    simp only [parseArrayLoop]
    cases hp : parser (parameters.drop start) with
    | ok vc =>
      obtain ⟨v, c⟩ := vc
      exact ih (start + c) (v :: acc) s
    | err e => simp
    | panicked s2 => exact absurd hp (hnp _ _)

/-- C1: the claim asserts every decoder reports its true consumed-element
count, and in particular that a successful Transfer parse (three field
elements read, one per field) returns a consumed count of 3.  The code
returns `currentIndex + 1 = 4` on a three-element parameter list, so this
theorem evaluates the embedded decoder at such an input: the struct is
decoded from exactly the three elements, yet the reported count is 4,
contradicting the claimed count 1 + 1 + 1 = 3 (and the function's own
documentation of the returned integer). -/
theorem c1_transfer_reports_four_consumed :
    ParseInfluence_Contracts_Crew_Crew_Transfer [⟨1⟩, ⟨2⟩, ⟨3⟩]
      = .ok (⟨"0x1", "0x2", 3⟩, 4) ∧ (4 : Nat) ≠ 1 + 1 + 1 := by
  constructor
  · rfl
  · decide

/-- C8: the claim asserts `FeltFromHexString` is total over all strings,
failing only by returning an error, including on strings shorter than two
characters.  The code evaluates `hexString[:2]` before any length check,
so on the empty string and on any one-byte string it hits a slice-bounds
run-time panic instead of returning an error; a two-byte non-hex string
does take the error path. -/
theorem c8_feltFromHexString_short_input_panics :
    FeltFromHexString "" = .panicked "runtime error: slice bounds out of range"
    ∧ FeltFromHexString "a" = .panicked "runtime error: slice bounds out of range"
    ∧ FeltFromHexString "zz" = .err .hexDecode := by
  refine ⟨rfl, rfl, rfl⟩

/-- C9 (counterexample): the claim asserts that a length-prefix field
element with `Uint64` value at least `2^63` is rejected with an error
rather than causing a crash.  On the concrete one-element input whose
length prefix has `Uint64` value `2^64 - 1`, the converted `int` length is
`-1`, the `len(parameters) < arrayLength+1` check passes (`1 < 0` is
false), and the decoder reaches `make([]T, -1)`, a run-time panic — not
the `ErrIncorrectParameters` error. -/
theorem c9_huge_length_panics_counterexample :
    ParseArray ParseString [⟨2 ^ 64 - 1⟩]
        = .panicked "makeslice: len out of range"
    ∧ ParseArray ParseString [⟨2 ^ 64 - 1⟩] ≠ .err .incorrectParameters := by
  refine ⟨by decide, by decide⟩

theorem parseArray_huge_length_panics {T : Type}
    (parser : List Felt → GoResult (T × Nat)) (lenFelt : Felt)
    (rest : List Felt) (hge : 2 ^ 63 - 1 ≤ lenFelt.Uint64) :
    ParseArray parser (lenFelt :: rest)
      = .panicked "makeslice: len out of range" := by
  have hlt64 : lenFelt.Uint64 < 2 ^ 64 := Nat.mod_lt _ (by norm_num)
  have h63n : (2 : Nat) ^ 63 = 9223372036854775808 := by norm_num
  have h64n : (2 : Nat) ^ 64 = 18446744073709551616 := by norm_num
  have h63i : (2 : Int) ^ 63 = 9223372036854775808 := by norm_num
  have h64i : (2 : Int) ^ 64 = 18446744073709551616 := by norm_num
  by_cases hneg : 2 ^ 63 ≤ lenFelt.Uint64
  · have harr : intOfUint64 lenFelt.Uint64 = (lenFelt.Uint64 : Int) - 2 ^ 64 := by
      unfold intOfUint64
      rw [if_neg (by omega)]
    have hwrap : wrapInt64 ((lenFelt.Uint64 : Int) - 2 ^ 64 + 1)
        = (lenFelt.Uint64 : Int) - 2 ^ 64 + 1 := by
      unfold wrapInt64
      rw [h63i, h64i]
      rw [h63n] at hneg
      rw [h64n] at hlt64
      omega
    have hg : ¬ (((rest.length + 1 : Nat) : Int)
        < (lenFelt.Uint64 : Int) - 2 ^ 64 + 1) := by
      rw [h64i]
      rw [h64n] at hlt64
      push_cast
      omega
    have hcond : (lenFelt.Uint64 : Int) - 2 ^ 64 < 0
        ∨ (2 : Int) ^ 63 - 1 ≤ (lenFelt.Uint64 : Int) - 2 ^ 64 := by
      left
      rw [h64i]
      rw [h64n] at hlt64
      omega
    simp only [ParseArray, harr, hwrap, List.length_cons]
    rw [if_neg hg, if_pos hcond]
  · have hraw : lenFelt.Uint64 = 9223372036854775807 := by
      rw [h63n] at hneg hge
      omega
    have harr : intOfUint64 lenFelt.Uint64 = (lenFelt.Uint64 : Int) := by
      unfold intOfUint64
      rw [if_pos (by omega)]
    have hwrap : wrapInt64 ((lenFelt.Uint64 : Int) + 1) = -((2 : Int) ^ 63) := by
      unfold wrapInt64
      rw [h63i, h64i]
      omega
    have hg : ¬ (((rest.length + 1 : Nat) : Int) < -((2 : Int) ^ 63)) := by
      rw [h63i]
      push_cast
      omega
    have hcond : (lenFelt.Uint64 : Int) < 0
        ∨ (2 : Int) ^ 63 - 1 ≤ (lenFelt.Uint64 : Int) := by
      right
      rw [h63i]
      omega
    simp only [ParseArray, harr, hwrap, List.length_cons]
    rw [if_neg hg, if_pos hcond]

theorem parseArray_no_panic_small {T : Type}
    (parser : List Felt → GoResult (T × Nat)) (lenFelt : Felt)
    (rest : List Felt) (hlt : lenFelt.Uint64 < 2 ^ 63 - 1)
    (hnp : ∀ qs s, parser qs ≠ .panicked s) (s : String) :
    ParseArray parser (lenFelt :: rest) ≠ .panicked s := by
  have h63n : (2 : Nat) ^ 63 = 9223372036854775808 := by norm_num
  have h63i : (2 : Int) ^ 63 = 9223372036854775808 := by norm_num
  have harr : intOfUint64 lenFelt.Uint64 = (lenFelt.Uint64 : Int) := by
    unfold intOfUint64
    rw [if_pos (by omega)]
  have hcond : ¬ ((lenFelt.Uint64 : Int) < 0
      ∨ (2 : Int) ^ 63 - 1 ≤ (lenFelt.Uint64 : Int)) := by
    rw [h63i]
    rw [h63n] at hlt
    omega
  simp only [ParseArray, harr]
  by_cases hguard : (((lenFelt :: rest).length : Nat) : Int)
      < wrapInt64 ((lenFelt.Uint64 : Int) + 1)
  · rw [if_pos hguard]
    simp
  · rw [if_neg hguard, if_neg hcond]
    exact parseArrayLoop_no_panic parser _ hnp _ _ _ s

/-- C9 (amended): the decoder returned by `ParseArray` panics at the
`make([]T, arrayLength)` slice allocation — instead of returning an
error — for every length prefix whose `Uint64` value is at least
`2^63 - 1`: values `2^63` and above convert to a negative Go `int` and
slip past the `len(parameters) < arrayLength+1` check, while at exactly
`2^63 - 1` (maxInt64) the check itself wraps (`arrayLength+1` overflows to
minInt64) and the allocation of `maxInt64` non-zero-size elements exceeds
the allocator limit on every platform.  Below `2^63 - 1` the decoder is
total — a decoded slice or an error, never a panic — whenever the element
parser itself never panics. -/
theorem c9_parseArray_panic_boundary {T : Type}
    (parser : List Felt → GoResult (T × Nat)) (lenFelt : Felt)
    (rest : List Felt) :
    (2 ^ 63 - 1 ≤ lenFelt.Uint64 →
      ParseArray parser (lenFelt :: rest)
        = .panicked "makeslice: len out of range")
    ∧ (lenFelt.Uint64 < 2 ^ 63 - 1 → (∀ qs s, parser qs ≠ .panicked s) →
      ∀ s, ParseArray parser (lenFelt :: rest) ≠ .panicked s) :=
  ⟨fun hge => parseArray_huge_length_panics parser lenFelt rest hge,
   fun hlt hnp s => parseArray_no_panic_small parser lenFelt rest hlt hnp s⟩

/-- Witness for `c9_parseArray_panic_boundary`: the decoder panics at
length prefixes `2^64 - 1` (negative converted length) and `2^63 - 1`
(maxInt64, wrapped bounds check), while at the well-formed length prefix
2 with two following elements it does not panic. -/
theorem c9_parseArray_panic_boundary_witness :
    ParseArray ParseString [⟨2 ^ 64 - 1⟩] = .panicked "makeslice: len out of range"
    ∧ ParseArray ParseString [⟨2 ^ 63 - 1⟩] = .panicked "makeslice: len out of range"
    ∧ ParseArray ParseString [⟨2⟩, ⟨5⟩, ⟨7⟩] ≠ .panicked "makeslice: len out of range" := by
  refine ⟨?_, ?_, ?_⟩
  · exact (c9_parseArray_panic_boundary ParseString ⟨2 ^ 64 - 1⟩ []).1 (by decide)
  · exact (c9_parseArray_panic_boundary ParseString ⟨2 ^ 63 - 1⟩ []).1 (by decide)
  · exact (c9_parseArray_panic_boundary ParseString ⟨2⟩ [⟨5⟩, ⟨7⟩]).2 (by decide)
      (fun qs s => by cases qs <;> simp [ParseString]) _

/-- C2 (counterexample): the claim's error clause asserts that any input
with fewer elements than required — here a length prefix claiming `2^63`
items with none following — returns the `ErrIncorrectParameters` error and
no values; the decoder instead panics at the slice allocation, because the
converted length is negative and the element-count check passes. -/
theorem c2_short_input_huge_length_counterexample :
    ParseArray ParseString [⟨2 ^ 63⟩] = .panicked "makeslice: len out of range"
    ∧ ParseArray ParseString [⟨2 ^ 63⟩] ≠ .err .incorrectParameters := by
  refine ⟨by decide, by decide⟩

/-- C2 (amended): the array decoder built from any element decoder (i)
succeeds on a parameter list made of a length prefix `n` followed by
exactly `n` decodable items, returning the `n` decoded values in
encounter order with a consumed count of `1 + sum(per-item consumption)`
(the list-length bound `2^63` reflects that a Go slice length is a
nonnegative `int`); (ii) returns `ErrIncorrectParameters` on an empty
input; (iii) returns `ErrIncorrectParameters` when fewer than `n`
elements follow the length prefix, provided the length prefix is below
`2^63 - 1`; (iv) propagates `ErrIncorrectParameters` when, after some
decodable items, an item invocation of the element decoder fails with it
because too few elements remain, again for length prefixes below
`2^63 - 1`; and (v) — the correction forced by the counterexample — for a
length prefix of `2^63 - 1` or more the decoder does not report the
shortfall but panics at the slice allocation. -/
theorem c2_parseArray_spec {T : Type}
    (parser : List Felt → GoResult (T × Nat)) (lenFelt : Felt)
    (rest : List Felt) (n : Nat) (vs : List T) (cs : List Nat) :
    (lenFelt.Uint64 = n → rest.length = cs.sum →
      (lenFelt :: rest).length < 2 ^ 63 →
      DecodesItems parser (lenFelt :: rest) 1 n vs cs →
      ParseArray parser (lenFelt :: rest) = .ok (vs, 1 + cs.sum))
    ∧ ParseArray parser ([] : List Felt) = .err .incorrectParameters
    ∧ (lenFelt.Uint64 = n → rest.length < n → (n : Int) + 1 < 2 ^ 63 →
      ParseArray parser (lenFelt :: rest) = .err .incorrectParameters)
    ∧ (∀ (j : Nat) (vsPre : List T) (csPre : List Nat),
        lenFelt.Uint64 = n → n < 2 ^ 63 - 1 → n ≤ rest.length → j < n →
        DecodesItems parser (lenFelt :: rest) 1 j vsPre csPre →
        parser ((lenFelt :: rest).drop (1 + csPre.sum))
          = .err .incorrectParameters →
        ParseArray parser (lenFelt :: rest) = .err .incorrectParameters)
    ∧ (2 ^ 63 - 1 ≤ lenFelt.Uint64 →
      ParseArray parser (lenFelt :: rest)
        = .panicked "makeslice: len out of range") := by
  have h63n : (2 : Nat) ^ 63 = 9223372036854775808 := by norm_num
  have h63i : (2 : Int) ^ 63 = 9223372036854775808 := by norm_num
  have h64i : (2 : Int) ^ 64 = 18446744073709551616 := by norm_num
  refine ⟨?_, ?_, ?_, ?_, ?_⟩
  · intro hU hlen hsz hdec
    obtain ⟨hcl, hcsum⟩ := DecodesItems_length_sum parser _ n 1 vs cs hdec
    simp only [List.length_cons] at hsz
    rw [h63n] at hsz
    have hn : n ≤ rest.length := by omega
    have harr : intOfUint64 lenFelt.Uint64 = (n : Int) := by
      unfold intOfUint64
      rw [hU, if_pos (by rw [h63n]; omega)]
    have hwrap : wrapInt64 ((n : Int) + 1) = (n : Int) + 1 := by
      unfold wrapInt64
      rw [h63i, h64i]
      omega
    have hg : ¬ (((rest.length + 1 : Nat) : Int) < (n : Int) + 1) := by
      push_cast
      omega
    have hcond : ¬ ((n : Int) < 0 ∨ (2 : Int) ^ 63 - 1 ≤ (n : Int)) := by
      rw [h63i]
      omega
    simp only [ParseArray, harr, hwrap, List.length_cons]
    rw [if_neg hg, if_neg hcond]
    rw [show ((n : Int)).toNat = n from by omega]
    have hloop := parseArrayLoop_ok parser (lenFelt :: rest) n 1 vs cs [] hdec
    simpa using hloop
  · rfl
  · intro hU hlt hn1
    rw [h63i] at hn1
    have harr : intOfUint64 lenFelt.Uint64 = (n : Int) := by
      unfold intOfUint64
      rw [hU, if_pos (by rw [h63n]; omega)]
    have hwrap : wrapInt64 ((n : Int) + 1) = (n : Int) + 1 := by
      unfold wrapInt64
      rw [h63i, h64i]
      omega
    simp only [ParseArray, harr, hwrap, List.length_cons]
    rw [if_pos (by push_cast; omega)]
  · intro j vsPre csPre hU hn63 hnr hj hdec hperr
    rw [h63n] at hn63
    have harr : intOfUint64 lenFelt.Uint64 = (n : Int) := by
      unfold intOfUint64
      rw [hU, if_pos (by rw [h63n]; omega)]
    have hg : ¬ (((rest.length + 1 : Nat) : Int) < wrapInt64 ((n : Int) + 1)) := by
      unfold wrapInt64
      rw [h63i, h64i]
      push_cast
      omega
    have hcond : ¬ ((n : Int) < 0 ∨ (2 : Int) ^ 63 - 1 ≤ (n : Int)) := by
      rw [h63i]
      omega
    simp only [ParseArray, harr, List.length_cons]
    rw [if_neg hg, if_neg hcond]
    rw [show ((n : Int)).toNat = n from by omega]
    rw [show n = j + Nat.succ (n - j - 1) from by omega]
    exact parseArrayLoop_err parser _ _ j (n - j - 1) 1 vsPre csPre [] hdec hperr
  · intro hge
    exact parseArray_huge_length_panics parser lenFelt rest hge

/-- Witness for `c2_parseArray_spec`: the string-array encoding with
length prefix 2 and items `5`, `7` decodes to the two rendered strings
with consumed count 3 = 1 + (1 + 1), and the empty input errors. -/
theorem c2_parseArray_spec_witness :
    ParseArray ParseString [⟨2⟩, ⟨5⟩, ⟨7⟩] = .ok (["0x5", "0x7"], 3)
    ∧ ParseArray ParseString [] = .err .incorrectParameters := by
  constructor
  · have hdec : DecodesItems ParseString [⟨2⟩, ⟨5⟩, ⟨7⟩] 1 2 ["0x5", "0x7"] [1, 1] :=
      ⟨"0x5", 1, ["0x7"], [1], rfl, by decide,
        ⟨"0x7", 1, [], [], rfl, by decide, ⟨rfl, rfl⟩, rfl, rfl⟩, rfl, rfl⟩
    have h := (c2_parseArray_spec ParseString ⟨2⟩ [⟨5⟩, ⟨7⟩] 2
      ["0x5", "0x7"] [1, 1]).1 (by decide) (by decide) (by decide) hdec
    simpa using h
  · exact (c2_parseArray_spec ParseString ⟨2⟩ [] 0 [] []).2.1

/-- C3: for every registered parser and every raw event whose primary key
equals none of the three registered signature field elements,
`EventParser.Parse` returns the sentinel result named UNKNOWN carrying the
original raw event unchanged, together with a nil error. -/
theorem c3_parse_no_match_returns_unknown (p : EventParser) (event : RawEvent)
    (h1 : event.PrimaryKey ≠ p.Event_Influence_Contracts_Crew_Crew_Approval_Felt)
    (h2 : event.PrimaryKey ≠ p.Event_Influence_Contracts_Crew_Crew_ApprovalForAll_Felt)
    (h3 : event.PrimaryKey ≠ p.Event_Influence_Contracts_Crew_Crew_Transfer_Felt) :
    EventParser.Parse p event = .ok (⟨EVENT_UNKNOWN, .raw event⟩, none) := by
  simp only [EventParser.Parse, Felt.Cmp_eq_zero_iff]
  rw [if_neg (Ne.symm h1), if_neg (Ne.symm h2), if_neg (Ne.symm h3)]

/-- Witness for `c3_parse_no_match_returns_unknown` at a concrete parser
whose registered felts are 1, 2, 3 and an event with primary key 4. -/
theorem c3_parse_no_match_returns_unknown_witness :
    EventParser.Parse ⟨⟨1⟩, ⟨2⟩, ⟨3⟩⟩ ⟨7, ⟨0⟩, ⟨0⟩, ⟨0⟩, ⟨4⟩, [⟨4⟩], [⟨9⟩]⟩
      = .ok (⟨"UNKNOWN", .raw ⟨7, ⟨0⟩, ⟨0⟩, ⟨0⟩, ⟨4⟩, [⟨4⟩], [⟨9⟩]⟩⟩, none) :=
  c3_parse_no_match_returns_unknown ⟨⟨1⟩, ⟨2⟩, ⟨3⟩⟩ _
    (by decide) (by decide) (by decide)

/-- C4: for every registered parser and every raw event whose primary key
matches a registered signature but whose parameter list makes that event's
struct decoder fail, `EventParser.Parse` returns the UNKNOWN sentinel
carrying the original raw event together with the (non-nil) decode error —
one conjunct per registered signature, with the earlier signatures
excluded in the later conjuncts because dispatch compares in order. -/
theorem c4_parse_match_decode_failure (p : EventParser) (event : RawEvent)
    (e : GoError) :
    (p.Event_Influence_Contracts_Crew_Crew_Approval_Felt = event.PrimaryKey →
      ParseInfluence_Contracts_Crew_Crew_Approval event.Parameters = .err e →
      EventParser.Parse p event = .ok (⟨EVENT_UNKNOWN, .raw event⟩, some e))
    ∧ (p.Event_Influence_Contracts_Crew_Crew_Approval_Felt ≠ event.PrimaryKey →
      p.Event_Influence_Contracts_Crew_Crew_ApprovalForAll_Felt = event.PrimaryKey →
      ParseInfluence_Contracts_Crew_Crew_ApprovalForAll event.Parameters = .err e →
      EventParser.Parse p event = .ok (⟨EVENT_UNKNOWN, .raw event⟩, some e))
    ∧ (p.Event_Influence_Contracts_Crew_Crew_Approval_Felt ≠ event.PrimaryKey →
      p.Event_Influence_Contracts_Crew_Crew_ApprovalForAll_Felt ≠ event.PrimaryKey →
      p.Event_Influence_Contracts_Crew_Crew_Transfer_Felt = event.PrimaryKey →
      ParseInfluence_Contracts_Crew_Crew_Transfer event.Parameters = .err e →
      EventParser.Parse p event = .ok (⟨EVENT_UNKNOWN, .raw event⟩, some e)) := by
  refine ⟨?_, ?_, ?_⟩
  · intro hm hfail
    simp only [EventParser.Parse, Felt.Cmp_eq_zero_iff]
    rw [if_pos hm, hfail]
  · intro hn1 hm hfail
    simp only [EventParser.Parse, Felt.Cmp_eq_zero_iff]
    rw [if_neg hn1, if_pos hm, hfail]
  · intro hn1 hn2 hm hfail
    simp only [EventParser.Parse, Felt.Cmp_eq_zero_iff]
    rw [if_neg hn1, if_neg hn2, if_pos hm, hfail]

/-- Witness for `c4_parse_match_decode_failure`: a parser with registered
felts 1, 2, 3 and an event whose primary key 3 matches the Transfer
signature but whose empty parameter list makes the Transfer decoder fail
with `ErrIncorrectParameters`. -/
theorem c4_parse_match_decode_failure_witness :
    EventParser.Parse ⟨⟨1⟩, ⟨2⟩, ⟨3⟩⟩ ⟨7, ⟨0⟩, ⟨0⟩, ⟨0⟩, ⟨3⟩, [⟨3⟩], []⟩
      = .ok (⟨"UNKNOWN", .raw ⟨7, ⟨0⟩, ⟨0⟩, ⟨0⟩, ⟨3⟩, [⟨3⟩], []⟩⟩,
          some .incorrectParameters) :=
  (c4_parse_match_decode_failure ⟨⟨1⟩, ⟨2⟩, ⟨3⟩⟩ _ .incorrectParameters).2.2
    (by decide) (by decide) (by decide) rfl

theorem advanceCursor_nonempty_range (cfg : PollConfig) (cur : CrawlCursor)
    (chunk : EventsChunk) (ht : chunk.ContinuationToken = "")
    (he : chunk.Events ≠ []) :
    (advanceCursor cfg cur chunk).Heat = cur.Heat + 1
    ∧ (cfg.hotThreshold ≤ cur.Heat + 1 →
        (advanceCursor cfg cur chunk).Interval = cfg.hotInterval) := by
  simp only [advanceCursor]
  rw [if_neg (by simp [ht]), if_pos (List.length_pos.mpr he)]
  constructor
  · split <;> rfl
  · intro hth
    rw [if_pos hth]

theorem advanceCursor_empty_range (cfg : PollConfig) (cur : CrawlCursor)
    (chunk : EventsChunk) (ht : chunk.ContinuationToken = "")
    (he : chunk.Events = []) :
    (advanceCursor cfg cur chunk).Heat = 0
    ∧ (advanceCursor cfg cur chunk).Interval = cfg.coldInterval := by
  simp only [advanceCursor]
  rw [if_neg (by simp [ht]), if_neg (by simp [he])]
  exact ⟨rfl, rfl⟩

theorem contractEventsStep_cont_fetch_inv (cfg : PollConfig)
    (headResp : Except GoError Nat) (chunk : EventsChunk) (c : CrawlCursor)
    (r : Nat × Nat) (em : List RawEvent) (next : CrawlCursor)
    (h : contractEventsStep cfg headResp (.ok chunk) c = .cont (some r) em next) :
    ∃ cur : CrawlCursor, cur.Heat = c.Heat ∧ next = advanceCursor cfg cur chunk := by
  unfold contractEventsStep at h
  split at h
  · simp at h
  · rename_i cur hres
    have hHeat : cur.Heat = c.Heat := by
      unfold resolveCursor at hres
      split at hres
      · cases headResp with
        | error e => simp at hres
        | ok hd =>
          simp only [Except.ok.injEq] at hres
          rw [← hres]
      · simp only [Except.ok.injEq] at hres
        rw [← hres]
    refine ⟨cur, hHeat, ?_⟩
    split at h
    · split at h <;> simp at h
    · split at h
      · simp at h
      · simp at h
      · split at h
        · simp at h
        · rename_i eventsResp2 chunk2 heq
          injection heq with hchunk
          subst hchunk
          split at h
          · simp at h
          · injection h with h1 h2 h3
            exact h3.symm

/-- C6: with a non-zero configured `toBlock`, once the cursor is cold
(its resolved `ToBlock` is at most its `FromBlock`, as after a range
advance moved `FromBlock` past the fixed bound) the very next loop
iteration returns `finished` — the embedded `return nil`, which fires the
deferred close of the output channel — emitting no events, fetching
nothing, regardless of what the provider would have answered. -/
theorem c6_fixed_range_cold_finishes (cfg : PollConfig) (cursor : CrawlCursor)
    (headResp : Except GoError Nat) (eventsResp : Except GoError EventsChunk)
    (h0 : cfg.toBlock ≠ 0) (hcur : cursor.ToBlock = cfg.toBlock)
    (hcold : cursor.ToBlock ≤ cursor.FromBlock) :
    contractEventsStep cfg headResp eventsResp cursor = .finished := by
  have hres : resolveCursor cfg headResp cursor = .ok cursor := by
    unfold resolveCursor
    rw [if_neg (by rw [hcur]; exact h0)]
  simp only [contractEventsStep, hres]
  rw [if_pos hcold, if_neg h0]

/-- Witness for `c6_fixed_range_cold_finishes`: a fixed-range crawl to
block 100 whose cursor has advanced to `FromBlock = 200` terminates. -/
theorem c6_fixed_range_cold_finishes_witness :
    contractEventsStep ⟨"", 2, 1, 10, 0, 100, 5, 7⟩ (.ok 0) (.ok ⟨[], ""⟩)
      ⟨200, 100, "", 1, 0⟩ = .finished :=
  c6_fixed_range_cold_finishes ⟨"", 2, 1, 10, 0, 100, 5, 7⟩ ⟨200, 100, "", 1, 0⟩
    (.ok 0) (.ok ⟨[], ""⟩) (by decide) (by decide) (by decide)

/-- C5: in a poll iteration whose cursor has `ToBlock = 0` (open-ended
crawl), with the provider reporting chain head `head` and a nonnegative
confirmations depth `conf ≤ head`, the effective upper bound used for the
fetch — the second component of the fetched block range — is exactly
`head - conf`, never `head`. -/
theorem c5_open_ended_bound_is_head_minus_confirmations (cfg : PollConfig)
    (cursor : CrawlCursor) (chunk : EventsChunk) (head conf : Nat)
    (flt : EventFilter) (emitted : List RawEvent)
    (hT : cursor.ToBlock = 0)
    (hconf : cfg.confirmations = (conf : Int))
    (hhead : head < 2 ^ 64)
    (hge : conf ≤ head)
    (hfrom : cursor.FromBlock < head - conf)
    (hfilter : AllEventsFilter cursor.FromBlock (head - conf) cfg.contractAddress
      = .ok flt)
    (hconv : toRawEvents chunk.Events = .ok emitted) :
    contractEventsStep cfg (.ok head) (.ok chunk) cursor
      = .cont (some (cursor.FromBlock, head - conf)) emitted
          (advanceCursor cfg { cursor with ToBlock := head - conf } chunk) := by
  have hres : resolveCursor cfg (.ok head) cursor
      = .ok { cursor with ToBlock := head - conf } := by
    have hcalc : u64sub head (u64ofInt cfg.confirmations) = head - conf := by
      rw [hconf, u64ofInt_coe conf (lt_of_le_of_lt hge hhead)]
      exact u64sub_of_le head conf hge hhead
    unfold resolveCursor
    rw [if_pos hT]
    simp only [hcalc]
  simp only [contractEventsStep, hres]
  rw [if_neg (Nat.not_le.mpr hfrom)]
  simp only [hfilter, hconv]

/-- Witness for `c5_open_ended_bound_is_head_minus_confirmations`: with
confirmations 5 and chain head 1000 the fetched range's upper bound is
995, never 1000. -/
theorem c5_open_ended_bound_witness :
    contractEventsStep ⟨"", 2, 1, 10, 0, 0, 5, 7⟩ (.ok 1000) (.ok ⟨[], ""⟩)
        ⟨0, 0, "", 1, 0⟩
      = .cont (some (0, 995)) [] ⟨996, 0, "", 10, 0⟩ := by
  have h := c5_open_ended_bound_is_head_minus_confirmations
    ⟨"", 2, 1, 10, 0, 0, 5, 7⟩ ⟨0, 0, "", 1, 0⟩ ⟨[], ""⟩ 1000 5
    ⟨0, 995, none, [[]]⟩ [] rfl rfl (by decide) (by decide) (by decide) rfl rfl
  exact h

/-- C10: the open-ended upper bound is computed with wrapping unsigned
64-bit subtraction: when the cursor's `ToBlock` is 0 and the reported
chain head `head` is below the confirmations depth `conf`, the resolved
upper bound is `(head - conf) mod 2^64` — an enormous block number rather
than a clamp to 0 — and, whenever that bound exceeds `FromBlock`, the
iteration proceeds to fetch that huge range. -/
theorem c10_head_below_confirmations_wraps (cfg : PollConfig)
    (cursor : CrawlCursor) (chunk : EventsChunk) (head conf : Nat)
    (flt : EventFilter) (emitted : List RawEvent)
    (hT : cursor.ToBlock = 0)
    (hconf : cfg.confirmations = (conf : Int))
    (hc64 : conf < 2 ^ 64)
    (hlt : head < conf)
    (hfrom : cursor.FromBlock < (((head : Int) - conf) % 2 ^ 64).toNat)
    (hfilter : AllEventsFilter cursor.FromBlock
      ((((head : Int) - conf) % 2 ^ 64).toNat) cfg.contractAddress = .ok flt)
    (hconv : toRawEvents chunk.Events = .ok emitted) :
    contractEventsStep cfg (.ok head) (.ok chunk) cursor
      = .cont (some (cursor.FromBlock, (((head : Int) - conf) % 2 ^ 64).toNat))
          emitted
          (advanceCursor cfg
            { cursor with ToBlock := (((head : Int) - conf) % 2 ^ 64).toNat }
            chunk) := by
  have hres : resolveCursor cfg (.ok head) cursor
      = .ok { cursor with ToBlock := (((head : Int) - conf) % 2 ^ 64).toNat } := by
    have hcalc : u64sub head (u64ofInt cfg.confirmations)
        = (((head : Int) - conf) % 2 ^ 64).toNat := by
      rw [hconf, u64ofInt_coe conf hc64]
      exact u64sub_of_lt head conf hlt hc64
    unfold resolveCursor
    rw [if_pos hT]
    simp only [hcalc]
  simp only [contractEventsStep, hres]
  rw [if_neg (Nat.not_le.mpr hfrom)]
  simp only [hfilter, hconv]

/-- Witness for `c10_head_below_confirmations_wraps`: head 3 with
confirmations 5 makes the fetched upper bound `2^64 - 2`. -/
theorem c10_head_below_confirmations_wraps_witness :
    contractEventsStep ⟨"", 2, 1, 10, 0, 0, 5, 7⟩ (.ok 3) (.ok ⟨[], ""⟩)
        ⟨0, 0, "", 1, 0⟩
      = .cont (some (0, 18446744073709551614)) []
          ⟨18446744073709551615, 0, "", 10, 0⟩ := by
  have h := c10_head_below_confirmations_wraps
    ⟨"", 2, 1, 10, 0, 0, 5, 7⟩ ⟨0, 0, "", 1, 0⟩ ⟨[], ""⟩ 3 5
    ⟨0, 18446744073709551614, none, [[]]⟩ [] rfl rfl (by decide) (by decide)
    (by decide) (by decide) rfl
  exact h

/-- C7: on a range advance (empty continuation token): (i) when the fetch
yielded at least one event, heat is incremented and — whenever the
incremented heat has reached `hotThreshold` — the next interval is set to
`hotInterval`; (ii) when the fetch yielded no events, heat resets to 0 and
the next interval is `coldInterval`; (iii) in particular, with
`hotThreshold = 2` and a cursor whose heat counter is nonnegative (as
every reachable cursor's is), after two consecutive non-empty
token-exhausted fetches the next iteration's interval equals
`hotInterval`. -/
theorem c7_heat_and_interval_rules (cfg : PollConfig) (cur : CrawlCursor)
    (chunk chunk₁ chunk₂ : EventsChunk) (c₀ c₁ c₂ : CrawlCursor)
    (hr₁ hr₂ : Except GoError Nat) (r₁ r₂ : Nat × Nat)
    (em₁ em₂ : List RawEvent) :
    (chunk.ContinuationToken = "" → chunk.Events ≠ [] →
      (advanceCursor cfg cur chunk).Heat = cur.Heat + 1
      ∧ (cfg.hotThreshold ≤ cur.Heat + 1 →
          (advanceCursor cfg cur chunk).Interval = cfg.hotInterval))
    ∧ (chunk.ContinuationToken = "" → chunk.Events = [] →
      (advanceCursor cfg cur chunk).Heat = 0
      ∧ (advanceCursor cfg cur chunk).Interval = cfg.coldInterval)
    ∧ (cfg.hotThreshold = 2 → 0 ≤ c₀.Heat →
      contractEventsStep cfg hr₁ (.ok chunk₁) c₀ = .cont (some r₁) em₁ c₁ →
      chunk₁.ContinuationToken = "" → chunk₁.Events ≠ [] →
      contractEventsStep cfg hr₂ (.ok chunk₂) c₁ = .cont (some r₂) em₂ c₂ →
      chunk₂.ContinuationToken = "" → chunk₂.Events ≠ [] →
      c₂.Interval = cfg.hotInterval) := by
  refine ⟨fun ht he => advanceCursor_nonempty_range cfg cur chunk ht he,
    fun ht he => advanceCursor_empty_range cfg cur chunk ht he, ?_⟩
  intro hth hpos hs1 ht1 he1 hs2 ht2 he2
  obtain ⟨curA, hA, hc1⟩ :=
    contractEventsStep_cont_fetch_inv cfg hr₁ chunk₁ c₀ r₁ em₁ c₁ hs1
  obtain ⟨curB, hB, hc2⟩ :=
    contractEventsStep_cont_fetch_inv cfg hr₂ chunk₂ c₁ r₂ em₂ c₂ hs2
  have h1 : c₁.Heat = c₀.Heat + 1 := by
    rw [hc1, (advanceCursor_nonempty_range cfg curA chunk₁ ht1 he1).1, hA]
  rw [hc2]
  apply (advanceCursor_nonempty_range cfg curB chunk₂ ht2 he2).2
  rw [hB, h1, hth]
  omega

/-- Witness for `c7_heat_and_interval_rules`, part (iii): a concrete
open-ended crawl with `hotThreshold = 2` where two consecutive non-empty
token-exhausted fetches are followed by an interval equal to the hot
interval (1), not the cold interval (10). -/
theorem c7_heat_and_interval_rules_witness :
    contractEventsStep ⟨"", 2, 1, 10, 0, 0, 0, 5⟩ (.ok 50)
        (.ok ⟨[⟨5, ⟨0⟩, ⟨0⟩, ⟨0⟩, [⟨9⟩], []⟩], ""⟩) ⟨0, 0, "", 1, 0⟩
      = .cont (some (0, 50)) [⟨5, ⟨0⟩, ⟨0⟩, ⟨0⟩, ⟨9⟩, [⟨9⟩], []⟩]
          ⟨51, 0, "", 1, 1⟩
    ∧ contractEventsStep ⟨"", 2, 1, 10, 0, 0, 0, 5⟩ (.ok 200)
        (.ok ⟨[⟨5, ⟨0⟩, ⟨0⟩, ⟨0⟩, [⟨9⟩], []⟩], ""⟩) ⟨51, 0, "", 1, 1⟩
      = .cont (some (51, 200)) [⟨5, ⟨0⟩, ⟨0⟩, ⟨0⟩, ⟨9⟩, [⟨9⟩], []⟩]
          ⟨201, 0, "", 1, 2⟩
    ∧ (⟨201, 0, "", 1, 2⟩ : CrawlCursor).Interval
        = (⟨"", 2, 1, 10, 0, 0, 0, 5⟩ : PollConfig).hotInterval := by
  refine ⟨by decide, by decide, ?_⟩
  exact (c7_heat_and_interval_rules ⟨"", 2, 1, 10, 0, 0, 0, 5⟩
      ⟨0, 0, "", 1, 0⟩ ⟨[], ""⟩ ⟨[⟨5, ⟨0⟩, ⟨0⟩, ⟨0⟩, [⟨9⟩], []⟩], ""⟩
      ⟨[⟨5, ⟨0⟩, ⟨0⟩, ⟨0⟩, [⟨9⟩], []⟩], ""⟩ ⟨0, 0, "", 1, 0⟩
      ⟨51, 0, "", 1, 1⟩ ⟨201, 0, "", 1, 2⟩ (.ok 50) (.ok 200)
      (0, 50) (51, 200) [⟨5, ⟨0⟩, ⟨0⟩, ⟨0⟩, ⟨9⟩, [⟨9⟩], []⟩]
      [⟨5, ⟨0⟩, ⟨0⟩, ⟨0⟩, ⟨9⟩, [⟨9⟩], []⟩]).2.2 rfl (by decide) (by decide)
      rfl (by decide) (by decide) rfl (by decide)

end InfluenceEth
